import Mathlib

/-!
# Verification of the deep-research agent core

A shallow embedding, in Lean 4, of the control/data flow of the
`deep_research` package (files `agent.py`, `decomposer.py`,
`output_organizer.py`): the recursive task-processing node, the
complexity assessor, the task decomposer and its dependency resolver,
and the report synthesizer's outline and section-prompt construction.

Python dictionaries are modelled as association lists with insertion
order and last-write-wins update (`dictInsert`); LLM/tool transport is
modelled by an environment (`Env`) that prescribes, per call site, the
outcome of each external call — either a response content or a raised
exception (`PyExn`).  All definitions follow the Python source; line
references are to the repository files.
-/

namespace DeepResearch

/-- A raised Python exception, abstracted to its message. -/
structure PyExn where
  msg : String
deriving DecidableEq, Repr

/-! ## Python-dict association lists

`dictInsert` models `d[k] = v` on a Python dict: if the key is present,
the value is overwritten in place (key order preserved); otherwise the
pair is appended (insertion order). -/

/-- `d[k] = v` on a Python dict modelled as an association list. -/
def dictInsert {α : Type} (k : String) (v : α) : List (String × α) → List (String × α)
  | [] => [(k, v)]
  | (k', v') :: rest => if k' = k then (k, v) :: rest else (k', v') :: dictInsert k v rest

/-- `d.get(k)` on a Python dict modelled as an association list. -/
def dictGet {α : Type} (d : List (String × α)) (k : String) : Option α :=
  match d with
  | [] => none
  | (k', v) :: rest => if k' = k then some v else dictGet rest k

theorem dictInsert_of_not_mem {α : Type} (k : String) (v : α) :
    ∀ d : List (String × α), k ∉ d.map Prod.fst → dictInsert k v d = d ++ [(k, v)] := by
  intro d
  induction d with
  | nil => intro _; rfl
  | cons p rest ih =>
    intro h
    simp only [List.map_cons, List.mem_cons] at h
    push_neg at h
    simp only [dictInsert, if_neg (Ne.symm h.1), List.cons_append, ih h.2]

theorem dictInsert_map_fst {α : Type} (k : String) (v : α) :
    ∀ d : List (String × α),
      (dictInsert k v d).map Prod.fst =
        if k ∈ d.map Prod.fst then d.map Prod.fst else d.map Prod.fst ++ [k] := by
  intro d
  induction d with
  | nil => simp [dictInsert]
  | cons p rest ih =>
    by_cases hk : p.1 = k
    · simp [dictInsert, hk]
    · simp only [dictInsert, if_neg hk, List.map_cons, ih, List.mem_cons]
      by_cases hm : k ∈ rest.map Prod.fst
      · simp [hm, hk, Ne.symm hk]
      · simp [hm, hk, Ne.symm hk]

theorem dictInsert_keys_nodup {α : Type} (k : String) (v : α)
    (d : List (String × α)) (h : (d.map Prod.fst).Nodup) :
    ((dictInsert k v d).map Prod.fst).Nodup := by
  rw [dictInsert_map_fst]
  by_cases hm : k ∈ d.map Prod.fst
  · simpa [hm]
  · simp only [hm, if_false]
    exact List.Nodup.append h (List.nodup_singleton k) (by simpa using hm)

theorem mem_keys_dictInsert {α : Type} (k : String) (v : α)
    (d : List (String × α)) (a : String) :
    a ∈ (dictInsert k v d).map Prod.fst ↔ a ∈ d.map Prod.fst ∨ a = k := by
  rw [dictInsert_map_fst]
  by_cases hm : k ∈ d.map Prod.fst
  · simp only [hm, if_true]
    constructor
    · intro h; exact Or.inl h
    · rintro (h | rfl)
      · exact h
      · exact hm
  · simp [hm]

/-! ## Task decomposer and dependency resolver (`decomposer.py`)

`TaskDependencyResolver.resolve_execution_order` (lines 129–149) and
`_topological_sort` (lines 151–189). -/

/-- A decomposer subtask: `{id, description, depends_on}` (`decomposer.py`). -/
structure DTask where
  id : String
  description : String
  dependsOn : List String
deriving DecidableEq, Repr

/-- `task_map = {task["id"]: task for task in tasks}` (line 140). -/
def taskMap (tasks : List DTask) : List (String × DTask) :=
  tasks.foldl (fun d t => dictInsert t.id t d) []

/-- `dependency_graph = {task["id"]: set(task.get("depends_on", [])) for task in tasks}`
(line 143).  The set is only ever used through membership, so the raw
list of dependency ids is kept. -/
def depGraph (tasks : List DTask) : List (String × List String) :=
  tasks.foldl (fun d t => dictInsert t.id t.dependsOn d) []

/-- Final value of `in_degree[n]` after the nested loops of lines
162–166: the number of graph keys whose dependency set contains `n`
(the `if neighbor in in_degree` guard restricts increments to graph
keys, and `in_degree` is only ever read at graph keys). -/
def inDegree (graph : List (String × List String)) (n : String) : Nat :=
  (graph.filter (fun p => n ∈ p.2)).length

/-- `queue = [node for node in in_degree if in_degree[node] == 0]`
(line 169), in graph-key order. -/
def initQueue (graph : List (String × List String)) : List String :=
  (graph.filter (fun p => inDegree graph p.1 = 0)).map Prod.fst

/-- One `while queue:` loop of lines 173–182, with explicit fuel.
State: the mutable `in_degree` dict, the queue, and `sorted_result`. -/
def topoLoop (graph : List (String × List String)) :
    Nat → List (String × Int) → List String → List String → List String
  | 0, _, _, sorted => sorted
  | fuel + 1, inDeg, queue, sorted =>
    match queue with
    | [] => sorted
    | node :: rest =>
      let sorted' := sorted ++ [node]
      -- `dependencies = [n for n in graph if node in graph[n]]` (line 178)
      let dependents := (graph.filter (fun p => node ∈ p.2)).map Prod.fst
      -- lines 179–182: decrement `in_degree[dependency]`, append on zero
      let st := dependents.foldl
        (fun (st : List (String × Int) × List String) dep =>
          let d := ((dictGet st.1 dep).getD 0) - 1
          (dictInsert dep d st.1, if d = 0 then st.2 ++ [dep] else st.2))
        (inDeg, rest)
      topoLoop graph fuel st.1 st.2 sorted'

/-- `TaskDependencyResolver._topological_sort` (lines 151–189).  The
fuel bound covers every possible iteration count of the Python loop:
each key enters the queue at most once (decrements are monotone), so
the loop runs at most `|initial queue| + |graph|` times. -/
def topologicalSort (graph : List (String × List String)) : List String :=
  let inDeg0 := graph.map (fun p => (p.1, (inDegree graph p.1 : Int)))
  let queue0 := initQueue graph
  let sorted := topoLoop graph (graph.length + queue0.length + 1) inDeg0 queue0 []
  -- lines 184–187: cycle check — on mismatch return keys in original order
  if sorted.length ≠ graph.length then graph.map Prod.fst else sorted

/-- `TaskDependencyResolver.resolve_execution_order` (lines 129–149):
`[task_map[task_id] for task_id in sorted_ids if task_id in task_map]`. -/
def resolveExecutionOrder (tasks : List DTask) : List DTask :=
  (topologicalSort (depGraph tasks)).filterMap (fun tid => dictGet (taskMap tasks) tid)

/-! ### Behaviour of the topological sort

The sort's edge direction is inverted with respect to Kahn's algorithm:
`in_degree[n]` counts the tasks that *depend on* `n`, so the initial
queue holds exactly the tasks nobody depends on, and popping such a
node can never decrement anything (its dependent list is empty).  The
loop therefore emits the initial queue and stops. -/

theorem topoLoop_of_no_dependents (graph : List (String × List String)) :
    ∀ (fuel : Nat) (inDeg : List (String × Int)) (queue sorted : List String),
      (∀ q ∈ queue, graph.filter (fun p => q ∈ p.2) = []) →
      queue.length ≤ fuel →
      topoLoop graph fuel inDeg queue sorted = sorted ++ queue := by
  intro fuel
  induction fuel with
  | zero =>
    intro inDeg queue sorted _ hlen
    have : queue = [] := List.eq_nil_of_length_eq_zero (Nat.le_zero.mp hlen)
    simp [topoLoop, this]
  | succ n ih =>
    intro inDeg queue sorted hq hlen
    match queue with
    | [] => simp [topoLoop]
    | node :: rest =>
      have hnode : graph.filter (fun p => node ∈ p.2) = [] := hq node (by simp)
      have hrest : ∀ q ∈ rest, graph.filter (fun p => q ∈ p.2) = [] :=
        fun q hqm => hq q (by simp [hqm])
      simp only [topoLoop, hnode, List.map_nil, List.foldl_nil]
      rw [ih inDeg rest (sorted ++ [node]) hrest (by simpa using Nat.le_of_succ_le_succ hlen)]
      simp

theorem initQueue_no_dependents (graph : List (String × List String)) :
    ∀ q ∈ initQueue graph, graph.filter (fun p => q ∈ p.2) = [] := by
  intro q hq
  simp only [initQueue, List.mem_map, List.mem_filter] at hq
  obtain ⟨p, ⟨_, hdeg⟩, rfl⟩ := hq
  have : inDegree graph p.1 = 0 := by simpa using hdeg
  exact List.eq_nil_of_length_eq_zero this

/-- The net effect of `_topological_sort`: it always returns the graph
keys in their original order (the BFS emits only the tasks that no task
depends on; whenever any dependency on a listed task exists the length
check fails and the cycle fallback returns the keys, and otherwise the
queue already was the full key list). -/
theorem topologicalSort_eq_keys (graph : List (String × List String)) :
    topologicalSort graph = graph.map Prod.fst := by
  simp only [topologicalSort]
  rw [topoLoop_of_no_dependents graph _ _ _ _ (initQueue_no_dependents graph)
      (by omega)]
  simp only [List.nil_append]
  by_cases h : (initQueue graph).length ≠ graph.length
  · simp [h]
  · push_neg at h
    simp only [h, ne_eq, not_true_eq_false, if_false]
    have hsub : graph.filter (fun p => inDegree graph p.1 = 0) = graph := by
      apply List.Sublist.eq_of_length (List.filter_sublist graph)
      have := h
      simpa [initQueue] using this
    simp [initQueue, hsub]

/-! ### Dict-construction lemmas -/

theorem foldl_dictInsert_eq {α : Type} (f : DTask → α) :
    ∀ (ts : List DTask) (acc : List (String × α)),
      (acc.map Prod.fst ++ ts.map DTask.id).Nodup →
      ts.foldl (fun d t => dictInsert t.id (f t) d) acc =
        acc ++ ts.map (fun t => (t.id, f t)) := by
  intro ts
  induction ts with
  | nil => intro acc _; simp
  | cons t rest ih =>
    intro acc h
    have hnot : t.id ∉ acc.map Prod.fst := by
      intro hmem
      have := (List.nodup_append.mp h).2.2
      exact this hmem (by simp)
    simp only [List.foldl_cons, dictInsert_of_not_mem t.id (f t) acc hnot]
    rw [ih (acc ++ [(t.id, f t)]) (by simpa [List.append_assoc] using h)]
    simp

theorem depGraph_eq (ts : List DTask) (h : (ts.map DTask.id).Nodup) :
    depGraph ts = ts.map (fun t => (t.id, t.dependsOn)) := by
  simpa using foldl_dictInsert_eq DTask.dependsOn ts [] (by simpa using h)

theorem taskMap_eq (ts : List DTask) (h : (ts.map DTask.id).Nodup) :
    taskMap ts = ts.map (fun t => (t.id, t)) := by
  simpa using foldl_dictInsert_eq id ts [] (by simpa using h)

theorem dictGet_append_of_not_mem {α : Type} (k : String) :
    ∀ (d₁ d₂ : List (String × α)), k ∉ d₁.map Prod.fst →
      dictGet (d₁ ++ d₂) k = dictGet d₂ k := by
  intro d₁
  induction d₁ with
  | nil => intro d₂ _; simp
  | cons p rest ih =>
    intro d₂ h
    simp only [List.map_cons, List.mem_cons] at h
    push_neg at h
    simp only [List.cons_append, dictGet, if_neg (Ne.symm h.1)]
    exact ih d₂ h.2

theorem filterMap_dictGet_id :
    ∀ (pre ts : List DTask), ((pre ++ ts).map DTask.id).Nodup →
      (ts.map DTask.id).filterMap
        (fun tid => dictGet ((pre ++ ts).map (fun t => (t.id, t))) tid) = ts := by
  intro pre ts
  induction ts generalizing pre with
  | nil => intro _; simp
  | cons t rest ih =>
    intro h
    have hpre : t.id ∉ (pre.map (fun t => (t.id, t))).map Prod.fst := by
      have hn := List.nodup_append.mp (by simpa using h)
      intro hmem
      simp only [List.map_map, List.mem_map] at hmem
      obtain ⟨u, hu, hid⟩ := hmem
      exact hn.2.2 (by
        simp only [List.mem_map]
        exact ⟨u, hu, by simpa using hid⟩) (by simp)
    have hget : dictGet ((pre ++ t :: rest).map (fun t => (t.id, t))) t.id = some t := by
      rw [List.map_append, dictGet_append_of_not_mem t.id _ _ hpre]
      simp [dictGet]
    simp only [List.map_cons, List.filterMap_cons, hget]
    have hrw : pre ++ t :: rest = (pre ++ [t]) ++ rest := by simp
    rw [hrw]
    rw [ih (pre ++ [t]) (by rw [← hrw]; exact h)]

/-- Helper: with pairwise-distinct ids, `resolve_execution_order` is the
identity function on task lists. -/
theorem resolveExecutionOrder_eq_self_of_nodup (ts : List DTask)
    (h : (ts.map DTask.id).Nodup) : resolveExecutionOrder ts = ts := by
  unfold resolveExecutionOrder
  rw [topologicalSort_eq_keys, depGraph_eq ts h, taskMap_eq ts h]
  have := filterMap_dictGet_id [] ts (by simpa using h)
  simpa [List.map_map, Function.comp] using this

/-! ### Structure of dict entries and of resolver output -/

theorem mem_dictInsert {α : Type} (k : String) (v : α) :
    ∀ (d : List (String × α)) (a : String × α),
      a ∈ dictInsert k v d → a = (k, v) ∨ a ∈ d := by
  intro d
  induction d with
  | nil => intro a ha; simpa [dictInsert] using ha
  | cons p rest ih =>
    intro a ha
    simp only [dictInsert] at ha
    by_cases hk : p.1 = k
    · simp only [hk, if_true, List.mem_cons] at ha
      rcases ha with h | h
      · exact Or.inl h
      · exact Or.inr (by simp [h])
    · simp only [hk, if_false, List.mem_cons] at ha
      rcases ha with h | h
      · exact Or.inr (by simp [h])
      · rcases ih a h with h' | h'
        · exact Or.inl h'
        · exact Or.inr (by simp [h'])

theorem taskMap_val_id (ts : List DTask) :
    ∀ p ∈ taskMap ts, (p.2).id = p.1 := by
  unfold taskMap
  suffices h : ∀ (acc : List (String × DTask)), (∀ p ∈ acc, (p.2).id = p.1) →
      ∀ p ∈ ts.foldl (fun d t => dictInsert t.id t d) acc, (p.2).id = p.1 by
    exact h [] (by simp)
  induction ts with
  | nil => intro acc hacc p hp; exact hacc p hp
  | cons t rest ih =>
    intro acc hacc p hp
    refine ih (dictInsert t.id t acc) ?_ p hp
    intro q hq
    rcases mem_dictInsert t.id t acc q hq with h | h
    · simp [h]
    · exact hacc q h

theorem dictGet_mem {α : Type} :
    ∀ (d : List (String × α)) (k : String) (v : α),
      dictGet d k = some v → (k, v) ∈ d := by
  intro d
  induction d with
  | nil => intro k v h; simp [dictGet] at h
  | cons p rest ih =>
    intro k v h
    simp only [dictGet] at h
    by_cases hk : p.1 = k
    · simp only [hk, if_true, Option.some.injEq] at h
      have hp : p = (k, v) := by
        cases p
        simp_all
      rw [hp]
      exact List.mem_cons_self _ _
    · simp only [hk, if_false] at h
      exact List.mem_cons_of_mem _ (ih k v h)

theorem ids_filterMap_dictGet_sublist (M : List (String × DTask))
    (hM : ∀ p ∈ M, (p.2).id = p.1) :
    ∀ l : List String,
      ((l.filterMap (fun tid => dictGet M tid)).map DTask.id).Sublist l := by
  intro l
  induction l with
  | nil => simp
  | cons a l ih =>
    simp only [List.filterMap_cons]
    cases hget : dictGet M a with
    | none => exact ih.cons a
    | some v =>
      have hv : v.id = a := hM (a, v) (dictGet_mem M a v hget)
      simp only [List.map_cons, hv]
      exact ih.cons₂ a

theorem keys_foldl_dictInsert_nodup {α : Type} (f : DTask → α) (ts : List DTask) :
    ∀ acc : List (String × α), (acc.map Prod.fst).Nodup →
      ((ts.foldl (fun d t => dictInsert t.id (f t) d) acc).map Prod.fst).Nodup := by
  induction ts with
  | nil => intro acc h; simpa using h
  | cons t rest ih =>
    intro acc h
    exact ih (dictInsert t.id (f t) acc) (dictInsert_keys_nodup t.id (f t) acc h)

/-- Helper: the resolver's output always carries pairwise-distinct ids. -/
theorem resolveExecutionOrder_ids_nodup (ts : List DTask) :
    ((resolveExecutionOrder ts).map DTask.id).Nodup := by
  unfold resolveExecutionOrder
  rw [topologicalSort_eq_keys]
  have hkeys : ((depGraph ts).map Prod.fst).Nodup :=
    keys_foldl_dictInsert_nodup DTask.dependsOn ts [] (by simp)
  exact List.Nodup.sublist
    (ids_filterMap_dictGet_sublist (taskMap ts) (taskMap_val_id ts) _) hkeys

/-! ### Claim theorems for the dependency resolver -/

/-- C2 (code evaluation at the failing input): for the two-task list in
which `"a"` depends on `"b"`, `resolve_execution_order` returns the
input order unchanged — the dependency `"b"` of the first task appears
*after* it, violating the documented contract that all tasks a task
depends on appear earlier. -/
theorem c2_resolveExecutionOrder_violates_contract :
    (resolveExecutionOrder
        [⟨"a", "analyze", ["b"]⟩, ⟨"b", "research", []⟩]).map DTask.id
      = ["a", "b"] ∧
    "b" ∈ (DTask.mk "a" "analyze" ["b"]).dependsOn := by
  constructor
  · rfl
  · simp

/-- C6: on every task list with pairwise-distinct ids,
`resolve_execution_order` is the identity function: whenever any listed
task is depended on the BFS output is too short and the cycle fallback
returns the original order, and otherwise the BFS itself emits the
tasks in input order. -/
theorem c6_resolveExecutionOrder_identity (ts : List DTask)
    (h : (ts.map DTask.id).Nodup) : resolveExecutionOrder ts = ts :=
  resolveExecutionOrder_eq_self_of_nodup ts h

/-- Witness for C6 at a concrete input. -/
theorem c6_resolveExecutionOrder_identity_witness :
    ([⟨"a", "x", ["b"]⟩, ⟨"b", "y", []⟩].map DTask.id).Nodup ∧
    resolveExecutionOrder [⟨"a", "x", ["b"]⟩, ⟨"b", "y", []⟩]
      = [⟨"a", "x", ["b"]⟩, ⟨"b", "y", []⟩] :=
  ⟨by decide, c6_resolveExecutionOrder_identity _ (by decide)⟩

/-- C7 counterexample: an acyclic task list (no dependencies at all),
trivially already in dependency order, on which `resolve_execution_order`
does *not* return the same list: with a duplicated id the output
collapses to a single entry. -/
theorem c7_order_counterexample :
    resolveExecutionOrder [⟨"a", "x", []⟩, ⟨"a", "x", []⟩]
      ≠ [⟨"a", "x", []⟩, ⟨"a", "x", []⟩] := by
  decide

/-- C7 (amended): `resolve_execution_order` is idempotent on every
input, and on every task list with pairwise-distinct ids — in
particular an already-ordered acyclic list, and a list whose dependency
graph contains a cycle — it returns the input list unchanged. -/
theorem c7_order_idempotent (ts : List DTask) :
    resolveExecutionOrder (resolveExecutionOrder ts) = resolveExecutionOrder ts ∧
    ((ts.map DTask.id).Nodup → resolveExecutionOrder ts = ts) :=
  ⟨resolveExecutionOrder_eq_self_of_nodup _ (resolveExecutionOrder_ids_nodup ts),
   fun h => resolveExecutionOrder_eq_self_of_nodup ts h⟩

/-- Witness for C7 at a concrete input (a cyclic two-task graph). -/
theorem c7_order_idempotent_witness :
    resolveExecutionOrder
        (resolveExecutionOrder [⟨"a", "x", ["b"]⟩, ⟨"b", "y", ["a"]⟩])
      = resolveExecutionOrder [⟨"a", "x", ["b"]⟩, ⟨"b", "y", ["a"]⟩] ∧
    ([⟨"a", "x", ["b"]⟩, ⟨"b", "y", ["a"]⟩].map DTask.id).Nodup ∧
    resolveExecutionOrder [⟨"a", "x", ["b"]⟩, ⟨"b", "y", ["a"]⟩]
      = [⟨"a", "x", ["b"]⟩, ⟨"b", "y", ["a"]⟩] :=
  ⟨(c7_order_idempotent _).1, by decide, (c7_order_idempotent _).2 (by decide)⟩

/-! ## Research node (`agent.py`)

`DeepResearchNode.process_task` and its helpers, lines 72–484.  Each
external LLM/tool call is resolved by the environment `Env`, indexed by
the node's position in the research tree (`path`, with the child at
loop index `i` extending the parent's path by `i`). -/

/-- `COMPLEXITY_THRESHOLD = 0.6` (`agent.py` line 31). -/
def COMPLEXITY_THRESHOLD : ℚ := 3 / 5

/-- What the complexity-assessment response parsing of lines 264–286
yields.  `parsed ic s?`: the JSON extraction succeeded with
`is_complex` present, and `complexity_score` either absent (`none`) or
present and convertible by `float(...)` to the value `s`.  `fallback kw`:
the JSON parse failed (malformed JSON, missing `is_complex`, or a
`ValueError` from `float(...)`), and the keyword scan over the raw
response text judged the task complex (`kw`). -/
inductive AssessContent where
  | parsed (isComplex : Bool) (score : Option ℚ)
  | fallback (keywordComplex : Bool)
deriving DecidableEq, Repr

/-- A `ComplexityAssessment` as returned by `_assess_complexity`:
`is_complex` plus the `complexity_score` field when present
(`reasoning` is carried in the source but never branched on). -/
structure Assessment where
  isComplex : Bool
  score : Option ℚ
deriving DecidableEq, Repr

/-- `DeepResearchNode._assess_complexity` (lines 224–301). -/
def assessComplexity (depth maxDepth : Nat) (gpt : Except PyExn AssessContent) :
    Assessment :=
  -- line 227: `if self.depth >= self.max_recursion_depth - 1`
  if maxDepth - 1 ≤ depth then ⟨false, none⟩
  else
    match gpt with
    | .error _ =>
      -- lines 294–301: transport error ⇒ `is_complex = (depth < 1)`, score 0.5
      ⟨decide (depth < 1), some (1 / 2)⟩
    | .ok (.parsed ic (some s)) =>
      -- lines 277–281: absolute threshold override
      if s < COMPLEXITY_THRESHOLD then ⟨false, some s⟩ else ⟨ic, some s⟩
    | .ok (.parsed ic none) => ⟨ic, none⟩
    | .ok (.fallback kw) =>
      -- lines 285–293: keyword heuristic with synthesized score
      ⟨kw, some (if kw then 7 / 10 else 3 / 10)⟩

/-- A subtask dispatched by the node: `{id, description}` (the only
fields `_process_subtasks` reads; a `requires` list may ride along in
the source dicts but is never used by the node). -/
structure Subtask where
  id : String
  description : String
deriving DecidableEq, Repr

/-- What the decomposition response parsing of lines 339–370 yields.
`parsed sts`: the JSON extraction succeeded and validation passed
(a list of objects each carrying `id` and `description`).
`regexMatches descs`: JSON parse or validation failed and the regex
extraction found the given `description`s (possibly none). -/
inductive DecomposeContent where
  | parsed (subtasks : List Subtask)
  | regexMatches (descriptions : List String)
deriving DecidableEq, Repr

/-- The canned generic subtasks of lines 374–378 / 381–385. -/
def cannedSubtasks (task : String) : List Subtask :=
  [⟨"task1", "深入研究'" ++ task ++ "'的背景和上下文"⟩,
   ⟨"task2", "分析'" ++ task ++ "'的核心问题和挑战"⟩,
   ⟨"task3", "提供关于'" ++ task ++ "'的解决方案和建议"⟩]

/-- `DeepResearchNode._decompose_task` (lines 303–385).  Every branch
returns a list; the function has no failure path of its own — in
particular the canned fallback makes no further LLM call. -/
def decomposeTask (task : String) (gpt : Except PyExn DecomposeContent) :
    List Subtask :=
  match gpt with
  | .error _ => cannedSubtasks task
  | .ok (.parsed sts) => sts
  | .ok (.regexMatches descs) =>
    -- line 367: `if matches:` — else the canned list
    if descs.isEmpty then cannedSubtasks task
    else descs.enum.map (fun p => ⟨"task" ++ toString (p.1 + 1), p.2⟩)

/-- The `solution` text `_solve_task` (lines 425–462) embeds in its
returned dict: the response content, or the error text of lines
460–462 — a transport failure never escapes `_solve_task`. -/
def solveTaskSolution (gpt : Except PyExn String) : String :=
  match gpt with
  | .ok content => content
  | .error e => "解决任务时出错: " ++ e.msg

/-- The dict `process_task` returns (lines 80–85, 123–130, 139–144):
either a simple result with a solution, or a complex result carrying
the dispatched subtasks, the per-id child results and the summary. -/
inductive TaskResult : Type where
  | simple (task : String) (depth : Nat) (solution : String)
  | complexR (task : String) (depth : Nat) (subtasks : List Subtask)
      (results : List (String × ((String × String) ⊕ TaskResult)))
      (summary : String)

/-- A `child_results` entry of `_process_subtasks`: either a child's
`TaskResult` or the `{"error": msg, "task": description}` dict of
lines 418–421, modelled as `Sum.inl (msg, description)`. -/
abbrev ChildEntry := (String × String) ⊕ TaskResult

/-- A knowledge-base entry as written by `_store_in_knowledge_base`
(lines 464–484).  The `results` payload and the wall-clock `timestamp`
are elided: no control flow reads them back. -/
structure KEntry where
  nodeId : String
  task : String
  taskType : String
  depth : Nat
  subtasks : Option (List Subtask)
deriving DecidableEq, Repr

/-- `DeepResearchNode._store_in_knowledge_base` (lines 464–484): the
write is skipped when the knowledge base is falsy (absent *or empty*),
and a failing write is swallowed. -/
def storeInKnowledgeBase (kb : List (String × KEntry)) (nodeId : String)
    (entry : KEntry) (outcome : Except PyExn Unit) : List (String × KEntry) :=
  if kb.isEmpty then kb
  else
    match outcome with
    | .error _ => kb
    | .ok _ => dictInsert nodeId entry kb

/-- External calls a node makes, for stating which collaborators were
invoked on a run. -/
inductive Event where
  | retrieveCall (path : List Nat)
  | assessCall (path : List Nat)
  | decomposeCall (path : List Nat)
  | solveCall (path : List Nat)
  | summarizeCall (path : List Nat)
deriving DecidableEq, Repr

/-- The transport environment: the outcome of every external call, per
call site (node path). -/
structure Env where
  retrieve : List Nat → Except PyExn Unit
  assess : List Nat → Except PyExn AssessContent
  decompose : List Nat → Except PyExn DecomposeContent
  solve : List Nat → Except PyExn String
  summarize : List Nat → Except PyExn String
  store : List Nat → Except PyExn Unit

/-- Outcome of one `process_task` run: the knowledge base after the
run, the external calls made, and the returned dict — or the exception
that propagated out of `process_task`. -/
structure RunOut where
  kb : List (String × KEntry)
  events : List Event
  result : Except PyExn TaskResult

/-- `DeepResearchNode._process_subtasks` (lines 387–423): dispatch each
subtask to a fresh child node (`proc`), catching any exception a child
propagates and recording it as an `{error, task}` entry under the
subtask's id, so that siblings continue. -/
def processSubtasks (proc : List Nat → String → String → List (String × KEntry) → RunOut)
    (path : List Nat) (parentNodeId : String) :
    List Subtask → Nat → List (String × KEntry) → List (String × ChildEntry) →
      List (String × KEntry) × List Event × List (String × ChildEntry)
  | [], _, kb, acc => (kb, [], acc)
  | st :: rest, i, kb, acc =>
    let out := proc (path ++ [i]) (parentNodeId ++ "_" ++ st.id) st.description kb
    let entry : ChildEntry :=
      match out.result with
      | .ok r => .inr r
      | .error e => .inl (e.msg, st.description)
    let restOut := processSubtasks proc path parentNodeId rest (i + 1) out.kb
      (dictInsert st.id entry acc)
    (restOut.1, out.events ++ restOut.2.1, restOut.2.2)

/-- `DeepResearchNode.process_task` (lines 72–144), with explicit fuel
for the recursion into child nodes.  `processTask` below instantiates
the fuel with `maxDepth - depth`, which makes the fuel-exhaustion
branch unreachable: the complex branch requires `depth < maxDepth`, so
the fuel there is positive, and children run at `depth + 1` with fuel
`maxDepth - (depth + 1)`. -/
def processTaskFuel (env : Env) (maxDepth : Nat) :
    Nat → Nat → List Nat → String → String → List (String × KEntry) → RunOut
  | fuel, depth, path, nodeId, task, kb =>
    -- lines 76–85: recursion base case
    if maxDepth ≤ depth then
      let solution := solveTaskSolution (env.solve path)
      let kb1 := storeInKnowledgeBase kb nodeId
        ⟨nodeId, task, "max_depth_reached", depth, none⟩ (env.store path)
      ⟨kb1, [.solveCall path], .ok (.simple task depth solution)⟩
    else
      -- lines 95–99: retrieval augmentation, only when `depth <= 1`;
      -- all its failures are swallowed inside `_enhance_with_retrieval`
      -- and it only augments the prompt context, which is not tracked.
      let retrievalEvents := if depth ≤ 1 then [Event.retrieveCall path] else []
      -- line 102
      let assessment := assessComplexity depth maxDepth (env.assess path)
      if assessment.isComplex && decide (depth < maxDepth) then
        -- lines 107–130
        let subtasks := (decomposeTask task (env.decompose path)).take 5
        match fuel with
        | 0 =>
          ⟨kb, retrievalEvents ++ [.assessCall path, .decomposeCall path],
            .error ⟨"fuel exhausted"⟩⟩
        | f + 1 =>
          let children := processSubtasks
            (fun p nid t k => processTaskFuel env maxDepth f (depth + 1) p nid t k)
            path nodeId subtasks 0 kb []
          -- line 118: best-effort store of the complex entry
          let kb2 := storeInKnowledgeBase children.1 nodeId
            ⟨nodeId, task, "complex", depth, some subtasks⟩ (env.store path)
          -- line 121: `_summarize_solutions` (lines 146–169) calls the
          -- completion service with NO try/except around it
          match env.summarize path with
          | .error e =>
            ⟨kb2, retrievalEvents ++ [.assessCall path, .decomposeCall path]
                ++ children.2.1 ++ [.summarizeCall path], .error e⟩
          | .ok summary =>
            ⟨kb2, retrievalEvents ++ [.assessCall path, .decomposeCall path]
                ++ children.2.1 ++ [.summarizeCall path],
              .ok (.complexR task depth subtasks children.2.2 summary)⟩
      else
        -- lines 131–144
        let solution := solveTaskSolution (env.solve path)
        let kb1 := storeInKnowledgeBase kb nodeId
          ⟨nodeId, task, "simple", depth, none⟩ (env.store path)
        ⟨kb1, retrievalEvents ++ [.assessCall path, .solveCall path],
          .ok (.simple task depth solution)⟩

/-- `process_task` as invoked on a node at depth `depth` with recursion
bound `maxDepth` (`DeepResearchAgent.research` starts the root at
depth 0). -/
def processTask (env : Env) (maxDepth depth : Nat) (path : List Nat)
    (nodeId task : String) (kb : List (String × KEntry)) : RunOut :=
  processTaskFuel env maxDepth (maxDepth - depth) depth path nodeId task kb

/-! ## Report synthesizer (`agent.py` lines 595–826, `output_organizer.py`)

Outline creation in both classes, and the section-prompt construction
of `DeepResearchAgent._generate_section_content`. -/

/-- An outline section: `{id, title, content_requirement, subsections}`. -/
inductive OutlineSection : Type where
  | mk (id : String) (title : String) (contentRequirement : String)
      (subsections : List OutlineSection)

/-- The `id` field of an outline section. -/
def OutlineSection.sid : OutlineSection → String
  | .mk i _ _ _ => i

/-- An outline: `{title, sections}`. -/
structure Outline where
  title : String
  sections : List OutlineSection

/-- What the outline-response handling of `DeepResearchAgent._create_outline`
(lines 628–650) yields: `direct o` — `json.loads(content)` succeeded;
`fenced o` — it failed but the regex-extracted ```json block parsed;
`failed` — neither parsed.  (The agent performs no structural
validation of a successfully parsed outline.) -/
inductive AgentOutlineParse where
  | direct (o : Outline)
  | fenced (o : Outline)
  | failed

/-- `DeepResearchAgent._create_outline` (lines 595–653): the parse
fallback (lines 645, 648) is `{"title": "研究报告", "sections": []}`,
and the transport-error fallback (line 653) is
`{"title": f"关于'{query}'的研究", "sections": []}` — both with an
*empty* section list. -/
def agentCreateOutline (query : String) (gpt : Except PyExn AgentOutlineParse) :
    Outline :=
  match gpt with
  | .error _ => ⟨"关于'" ++ query ++ "'的研究", []⟩
  | .ok (.direct o) => o
  | .ok (.fenced o) => o
  | .ok .failed => ⟨"研究报告", []⟩

/-- What the outline-response handling of `OutputOrganizer._create_outline`
(lines 102–132) yields: `valid o` — the (possibly fence-stripped)
content parsed and carries `title` and a `sections` list; `invalid` —
parse or validation failed. -/
inductive OrganizerOutlineParse where
  | valid (o : Outline)
  | invalid

/-- `OutputOrganizer._get_default_outline` (lines 134–172): the fixed
five-section default outline. -/
def organizerDefaultOutline (query : String) : Outline :=
  ⟨"关于「" ++ query ++ "」的深度研究",
   [.mk "introduction" "1. 引言" "介绍研究背景、目的和意义" [],
    .mk "methodology" "2. 研究方法" "描述本次研究采用的方法和步骤" [],
    .mk "findings" "3. 研究发现" "详细阐述研究的主要发现和结果" [],
    .mk "analysis" "4. 分析与讨论" "对研究结果进行深入分析和讨论" [],
    .mk "conclusion" "5. 结论" "总结研究结论，提出建议或展望" []]⟩

/-- `OutputOrganizer._create_outline` (lines 49–132): every failure
path — transport error, JSON parse failure, or a parsed value missing
`title`/`sections` — returns the five-section default outline. -/
def organizerCreateOutline (query : String)
    (gpt : Except PyExn OrganizerOutlineParse) : Outline :=
  match gpt with
  | .error _ => organizerDefaultOutline query
  | .ok .invalid => organizerDefaultOutline query
  | .ok (.valid o) => o

/-- A generated report section, as accumulated in `content["sections"]`
(`agent.py` lines 786–792): only `title` and `content` are read back by
the prompt builder. -/
structure ReportSection where
  title : String
  content : String
deriving DecidableEq, Repr

/-- The excerpt of a previous section's content (`agent.py` line 778):
`prev_content[:100] + "..." if len(prev_content) > 100 else prev_content`. -/
def sectionExcerpt (content : String) : String :=
  if 100 < content.length then content.take 100 ++ "..." else content

/-- The per-previous-section summary lines of `agent.py` lines 773–779:
over `previous_sections[-2:]`, sections with falsy (empty) `content`
contribute nothing. -/
def prevSectionLines (previousSections : List ReportSection) : List String :=
  ((previousSections.drop (previousSections.length - 2)).filter
      (fun p => p.content != "")).map
    (fun p => "\n- " ++ p.title ++ ": " ++ sectionExcerpt p.content)

/-- The pieces successively appended to `user_prompt` in
`DeepResearchAgent._generate_section_content` (lines 717–781), in
order: the fixed header with title/section/requirement (lines
718–724), the research-result information of lines 727–768 (data
dependent, abstracted as `researchInfo`), the previous-sections block
of lines 770–779 (present exactly when `previous_sections` is
non-empty), and the closing instruction of line 781. -/
def sectionUserPromptPieces (reportTitle sectionTitle contentRequirement : String)
    (researchInfo : List String) (previousSections : List ReportSection) :
    List String :=
  ["\n请撰写以下研究报告章节的实际内容：\n\n报告标题: " ++ reportTitle
      ++ "\n当前章节: " ++ sectionTitle
      ++ "\n章节要求: " ++ contentRequirement ++ "\n"]
  ++ researchInfo
  ++ (if previousSections.isEmpty then []
      else "\n\n前面章节简要内容摘要:" :: prevSectionLines previousSections)
  ++ ["\n\n请直接输出此章节的完整内容，不要包含任何写作指南、元描述或非研究内容的文本。"]

/-- The `user_prompt` string sent to the completion service for one
section: the concatenation of the successively appended pieces. -/
def sectionUserPrompt (reportTitle sectionTitle contentRequirement : String)
    (researchInfo : List String) (previousSections : List ReportSection) :
    String :=
  String.join (sectionUserPromptPieces reportTitle sectionTitle
    contentRequirement researchInfo previousSections)

/-! ## Concrete environments used in witnesses and counterexamples -/

/-- An environment in which every external call succeeds and the model
judges every task simple. -/
def envAllOk : Env :=
  { retrieve := fun _ => .ok ()
    assess := fun _ => .ok (.parsed false none)
    decompose := fun _ => .ok (.parsed [])
    solve := fun _ => .ok "s"
    summarize := fun _ => .ok "sum"
    store := fun _ => .ok () }

/-- An environment in which the root is judged complex, every child
call succeeds, but the root's cross-subtask summary call fails. -/
def envSummarizeFail : Env :=
  { retrieve := fun _ => .ok ()
    assess := fun p =>
      if p.isEmpty then .ok (.parsed true none) else .ok (.parsed false none)
    decompose := fun _ => .ok (.parsed [⟨"t1", "d1"⟩])
    solve := fun _ => .ok "s"
    summarize := fun p =>
      if p.isEmpty then .error ⟨"summary transport failure"⟩ else .ok "sum"
    store := fun _ => .ok () }

/-- An environment in which the root is judged complex and the
decomposer returns six subtasks. -/
def envSix : Env :=
  { retrieve := fun _ => .ok ()
    assess := fun p =>
      if p.isEmpty then .ok (.parsed true none) else .ok (.parsed false none)
    decompose := fun _ => .ok (.parsed
      [⟨"a", "d"⟩, ⟨"b", "d"⟩, ⟨"c", "d"⟩, ⟨"d", "d"⟩, ⟨"e", "d"⟩, ⟨"f", "d"⟩])
    solve := fun _ => .ok "s"
    summarize := fun _ => .ok "sum"
    store := fun _ => .ok () }

/-- A child-processing function whose every call propagates an
exception, for exercising the sibling-isolation of
`_process_subtasks`. -/
def procFail : List Nat → String → String → List (String × KEntry) → RunOut :=
  fun _ _ _ kb => ⟨kb, [], .error ⟨"boom"⟩⟩

/-! ### Branch-unfolding lemmas for `processTaskFuel` -/

theorem processTaskFuel_base_eq (env : Env) (maxDepth fuel depth : Nat)
    (path : List Nat) (nodeId task : String) (kb : List (String × KEntry))
    (h : maxDepth ≤ depth) :
    processTaskFuel env maxDepth fuel depth path nodeId task kb =
      ⟨storeInKnowledgeBase kb nodeId
          ⟨nodeId, task, "max_depth_reached", depth, none⟩ (env.store path),
        [.solveCall path],
        .ok (.simple task depth (solveTaskSolution (env.solve path)))⟩ := by
  rw [processTaskFuel.eq_def]
  simp [h]

theorem processTaskFuel_simple_eq (env : Env) (maxDepth fuel depth : Nat)
    (path : List Nat) (nodeId task : String) (kb : List (String × KEntry))
    (h : ¬ maxDepth ≤ depth)
    (hc : ((assessComplexity depth maxDepth (env.assess path)).isComplex
        && decide (depth < maxDepth)) = false) :
    processTaskFuel env maxDepth fuel depth path nodeId task kb =
      ⟨storeInKnowledgeBase kb nodeId
          ⟨nodeId, task, "simple", depth, none⟩ (env.store path),
        (if depth ≤ 1 then [Event.retrieveCall path] else [])
          ++ [.assessCall path, .solveCall path],
        .ok (.simple task depth (solveTaskSolution (env.solve path)))⟩ := by
  rw [processTaskFuel.eq_def]
  simp only [if_neg h, hc, Bool.false_eq_true, if_false]

theorem processTaskFuel_complex_eq (env : Env) (maxDepth f depth : Nat)
    (path : List Nat) (nodeId task : String) (kb : List (String × KEntry))
    (h : ¬ maxDepth ≤ depth)
    (hc : ((assessComplexity depth maxDepth (env.assess path)).isComplex
        && decide (depth < maxDepth)) = true) :
    processTaskFuel env maxDepth (f + 1) depth path nodeId task kb =
      (match env.summarize path with
        | .error e =>
          ⟨storeInKnowledgeBase
              (processSubtasks
                (fun p nid t k => processTaskFuel env maxDepth f (depth + 1) p nid t k)
                path nodeId ((decomposeTask task (env.decompose path)).take 5) 0 kb []).1
              nodeId
              ⟨nodeId, task, "complex", depth,
                some ((decomposeTask task (env.decompose path)).take 5)⟩
              (env.store path),
            (if depth ≤ 1 then [Event.retrieveCall path] else [])
              ++ [.assessCall path, .decomposeCall path]
              ++ (processSubtasks
                (fun p nid t k => processTaskFuel env maxDepth f (depth + 1) p nid t k)
                path nodeId ((decomposeTask task (env.decompose path)).take 5) 0 kb []).2.1
              ++ [.summarizeCall path],
            .error e⟩
        | .ok summary =>
          ⟨storeInKnowledgeBase
              (processSubtasks
                (fun p nid t k => processTaskFuel env maxDepth f (depth + 1) p nid t k)
                path nodeId ((decomposeTask task (env.decompose path)).take 5) 0 kb []).1
              nodeId
              ⟨nodeId, task, "complex", depth,
                some ((decomposeTask task (env.decompose path)).take 5)⟩
              (env.store path),
            (if depth ≤ 1 then [Event.retrieveCall path] else [])
              ++ [.assessCall path, .decomposeCall path]
              ++ (processSubtasks
                (fun p nid t k => processTaskFuel env maxDepth f (depth + 1) p nid t k)
                path nodeId ((decomposeTask task (env.decompose path)).take 5) 0 kb []).2.1
              ++ [.summarizeCall path],
            .ok (.complexR task depth ((decomposeTask task (env.decompose path)).take 5)
              (processSubtasks
                (fun p nid t k => processTaskFuel env maxDepth f (depth + 1) p nid t k)
                path nodeId ((decomposeTask task (env.decompose path)).take 5) 0 kb []).2.2
              summary)⟩) := by
  rw [processTaskFuel.eq_def]
  simp only [if_neg h, hc, if_true]

theorem dictGet_dictInsert_self {α : Type} (k : String) (v : α) :
    ∀ d : List (String × α), dictGet (dictInsert k v d) k = some v := by
  intro d
  induction d with
  | nil => simp [dictInsert, dictGet]
  | cons p rest ih =>
    by_cases hk : p.1 = k
    · simp [dictInsert, dictGet, hk]
    · simp [dictInsert, dictGet, hk, ih]

/-! ### Claim theorems for the complexity assessor -/

/-- C3 counterexample: at depth 0 a transport error makes
`_assess_complexity` return the degraded assessment
`{is_complex: True, complexity_score: 0.5}`, whose score is strictly
below the threshold 0.6 while `is_complex` is `true`. -/
theorem c3_assess_counterexample :
    assessComplexity 0 3 (.error ⟨"connection error"⟩)
        = ⟨true, some (1 / 2)⟩ ∧
      (1 / 2 : ℚ) < COMPLEXITY_THRESHOLD := by
  constructor
  · simp [assessComplexity]
  · norm_num [COMPLEXITY_THRESHOLD]

/-- C3 (amended): `complexity_score < threshold` forces
`is_complex = false` for every assessment whose completion call
returned (including the parse-failure keyword fallback); on a
transport error the degraded assessment (score 0.5) satisfies the
invariant exactly when `depth ≥ 1` — at depth 0 it sets
`is_complex = true`. -/
theorem c3_assess_threshold_override (depth maxDepth : Nat) (c : AssessContent)
    (s : ℚ) :
    ((assessComplexity depth maxDepth (.ok c)).score = some s →
      s < COMPLEXITY_THRESHOLD →
      (assessComplexity depth maxDepth (.ok c)).isComplex = false) ∧
    (∀ e : PyExn, 1 ≤ depth →
      (assessComplexity depth maxDepth (.error e)).isComplex = false) := by
  constructor
  · intro hscore hlt
    unfold assessComplexity at hscore ⊢
    by_cases hd : maxDepth - 1 ≤ depth
    · simp [hd]
    · simp only [hd, if_false] at hscore ⊢
      match c with
      | .parsed ic (some s₀) =>
        by_cases hs : s₀ < COMPLEXITY_THRESHOLD
        · simp [hs]
        · simp only [hs, if_false] at hscore ⊢
          have hss : s₀ = s := by simpa using hscore
          exact absurd hlt (hss ▸ hs)
      | .parsed ic none => simp at hscore
      | .fallback kw =>
        match kw with
        | true =>
          exfalso
          simp only [Assessment.score, Option.some.injEq] at hscore
          rw [← hscore] at hlt
          norm_num [COMPLEXITY_THRESHOLD] at hlt
        | false => simp
  · intro e hdep
    unfold assessComplexity
    by_cases hd : maxDepth - 1 ≤ depth
    · simp [hd]
    · simp only [hd, if_false]
      simp [Nat.not_lt.mpr hdep]

/-- Witness for C3's amended theorem at concrete inputs: the keyword
fallback at depth 1 (score 0.3), and a transport error at depth 1. -/
theorem c3_assess_threshold_override_witness :
    (assessComplexity 1 9 (.ok (.fallback false))).isComplex = false ∧
    (assessComplexity 1 9 (.error ⟨"x"⟩)).isComplex = false :=
  ⟨(c3_assess_threshold_override 1 9 (.fallback false) (3 / 10)).1
      (by simp [assessComplexity])
      (by norm_num [COMPLEXITY_THRESHOLD]),
   (c3_assess_threshold_override 1 9 (.fallback false) 0).2 ⟨"x"⟩ (by norm_num)⟩

/-! ### Claim theorems for `process_task` -/

/-- C5 (amended): at `depth ≥ max_depth`, `process_task` invokes
neither the complexity assessor nor the decomposer, solves directly,
returns a non-complex result carrying the direct solution, and — when
the knowledge base is truthy (non-empty) and the write succeeds —
records a knowledge entry of kind `max_depth_reached`; with an empty
(or absent) knowledge base the write is skipped. -/
theorem c5_max_depth_base_case (env : Env) (maxDepth depth : Nat)
    (path : List Nat) (nodeId task : String) (kb : List (String × KEntry))
    (h : maxDepth ≤ depth) :
    (processTask env maxDepth depth path nodeId task kb).result
        = .ok (.simple task depth (solveTaskSolution (env.solve path))) ∧
    (processTask env maxDepth depth path nodeId task kb).events
        = [Event.solveCall path] ∧
    (∀ p, Event.assessCall p ∉ (processTask env maxDepth depth path nodeId task kb).events ∧
          Event.decomposeCall p ∉ (processTask env maxDepth depth path nodeId task kb).events) ∧
    (kb ≠ [] → env.store path = .ok () →
      dictGet (processTask env maxDepth depth path nodeId task kb).kb nodeId
        = some ⟨nodeId, task, "max_depth_reached", depth, none⟩) := by
  simp only [processTask, processTaskFuel_base_eq env maxDepth _ depth path nodeId task kb h]
  refine ⟨by trivial, by trivial, by simp, ?_⟩
  intro hkb hstore
  have hne : kb.isEmpty = false := by
    cases kb with
    | nil => exact absurd rfl hkb
    | cons a l => rfl
  simp only [storeInKnowledgeBase, hne, Bool.false_eq_true, if_false, hstore]
  exact dictGet_dictInsert_self _ _ kb

/-- Witness for C5 at a concrete input (non-empty knowledge base). -/
theorem c5_max_depth_base_case_witness :
    (processTask envAllOk 2 2 [0, 0] "root_a_b" "q"
        [("seed", ⟨"seed", "t0", "simple", 0, none⟩)]).result
      = .ok (.simple "q" 2 "s") ∧
    dictGet (processTask envAllOk 2 2 [0, 0] "root_a_b" "q"
        [("seed", ⟨"seed", "t0", "simple", 0, none⟩)]).kb "root_a_b"
      = some ⟨"root_a_b", "q", "max_depth_reached", 2, none⟩ := by
  have h := c5_max_depth_base_case envAllOk 2 2 [0, 0] "root_a_b" "q"
    [("seed", ⟨"seed", "t0", "simple", 0, none⟩)] (by norm_num)
  exact ⟨h.1, h.2.2.2 (by simp) rfl⟩

/-- C5 counterexample: with the (default) empty knowledge base, the
max-depth base case writes *no* knowledge entry at all — the store
helper returns early on a falsy knowledge base, so no
`max_depth_reached` entry appears. -/
theorem c5_empty_kb_counterexample :
    (0 : Nat) ≤ 0 ∧
    (processTask envAllOk 0 0 [] "root" "q" []).result = .ok (.simple "q" 0 "s") ∧
    (processTask envAllOk 0 0 [] "root" "q" []).kb = [] :=
  ⟨le_refl 0, rfl, rfl⟩

/-- C10: every complex result returned by `process_task` carries
exactly the decomposer output truncated to its first 5 entries as the
dispatched subtask list — in particular at most 5 subtasks. -/
theorem c10_subtask_cap (env : Env) (maxDepth depth : Nat) (path : List Nat)
    (nodeId task : String) (kb : List (String × KEntry))
    (t : String) (d : Nat) (sts : List Subtask)
    (res : List (String × ChildEntry)) (s : String)
    (h : (processTask env maxDepth depth path nodeId task kb).result
        = .ok (.complexR t d sts res s)) :
    sts = (decomposeTask task (env.decompose path)).take 5 ∧ sts.length ≤ 5 := by
  have hlen : ∀ l : List Subtask, (l.take 5).length ≤ 5 := fun l =>
    List.length_take_le 5 l
  unfold processTask at h
  by_cases hd : maxDepth ≤ depth
  · rw [processTaskFuel_base_eq env maxDepth _ depth path nodeId task kb hd] at h
    exact absurd h (by simp)
  · rw [show maxDepth - depth = (maxDepth - depth - 1) + 1 by omega] at h
    by_cases hc : ((assessComplexity depth maxDepth (env.assess path)).isComplex
        && decide (depth < maxDepth)) = true
    · rw [processTaskFuel_complex_eq env maxDepth _ depth path nodeId task kb hd hc] at h
      cases hs : env.summarize path with
      | error e => rw [hs] at h; exact absurd h (by simp)
      | ok summary =>
        rw [hs] at h
        simp only [Except.ok.injEq, TaskResult.complexR.injEq] at h
        obtain ⟨-, -, hsts, -, -⟩ := h
        exact ⟨hsts.symm, hsts ▸ hlen _⟩
    · rw [processTaskFuel_simple_eq env maxDepth _ depth path nodeId task kb hd
        (Bool.not_eq_true _ ▸ eq_false_of_ne_true hc)] at h
      exact absurd h (by simp)

/-- C1 counterexample: all retrieval, assessment, decomposition, child
and store calls succeed, the decomposition parses (the canned fallback
is never reached), yet `process_task` propagates the exception raised
by the unguarded cross-subtask summary call. -/
theorem c1_summary_failure_propagates :
    (processTask envSummarizeFail 2 0 [] "root" "q" []).result
        = .error ⟨"summary transport failure"⟩ ∧
    envSummarizeFail.decompose [] = .ok (.parsed [⟨"t1", "d1"⟩]) :=
  ⟨rfl, rfl⟩

/-- C1 (amended): `process_task` returns a result dict for every
environment except that a completion failure in the node's own
cross-subtask summary call propagates: an exception escapes the call
iff it is the summary call's exception (descendant failures of any
kind — including their own summary failures — are caught per-subtask
and degraded into `child_results` entries, and decomposition never
raises because its canned fallback makes no completion call). -/
theorem c1_only_summary_failure_escapes (env : Env) (maxDepth depth : Nat)
    (path : List Nat) (nodeId task : String) (kb : List (String × KEntry)) :
    (∀ e, (processTask env maxDepth depth path nodeId task kb).result = .error e →
      env.summarize path = .error e) ∧
    (∀ s, env.summarize path = .ok s →
      ∃ r, (processTask env maxDepth depth path nodeId task kb).result = .ok r) := by
  unfold processTask
  by_cases hd : maxDepth ≤ depth
  · rw [processTaskFuel_base_eq env maxDepth _ depth path nodeId task kb hd]
    constructor
    · intro e he; exact absurd he (by simp)
    · intro s _; exact ⟨_, rfl⟩
  · rw [show maxDepth - depth = (maxDepth - depth - 1) + 1 by omega]
    by_cases hc : ((assessComplexity depth maxDepth (env.assess path)).isComplex
        && decide (depth < maxDepth)) = true
    · rw [processTaskFuel_complex_eq env maxDepth _ depth path nodeId task kb hd hc]
      cases hs : env.summarize path with
      | error e =>
        constructor
        · intro e' he'; simpa using he'
        · intro s hs'; exact absurd hs' (by simp)
      | ok summary =>
        constructor
        · intro e he; exact absurd he (by simp)
        · intro s _; exact ⟨_, rfl⟩
    · rw [processTaskFuel_simple_eq env maxDepth _ depth path nodeId task kb hd
        (eq_false_of_ne_true hc)]
      constructor
      · intro e he; exact absurd he (by simp)
      · intro s _; exact ⟨_, rfl⟩

/-- Witness for C1's amended theorem at concrete inputs. -/
theorem c1_only_summary_failure_escapes_witness :
    envSummarizeFail.summarize [] = .error ⟨"summary transport failure"⟩ ∧
    ∃ r, (processTask envAllOk 3 0 [] "root" "q" []).result = .ok r :=
  ⟨(c1_only_summary_failure_escapes envSummarizeFail 2 0 [] "root" "q" []).1
      ⟨"summary transport failure"⟩ rfl,
   (c1_only_summary_failure_escapes envAllOk 3 0 [] "root" "q" []).2 "sum" rfl⟩

/-! ### Claim theorems for `_process_subtasks` -/

/-- A well-formed `child_results` entry: either a child's result dict,
or an `{error, task}` dict whose `task` is the description of a
dispatched subtask with that id. -/
def entryOk (allowed : List Subtask) (k : String) (e : ChildEntry) : Prop :=
  (∃ r, e = Sum.inr r) ∨
  ∃ msg st, st ∈ allowed ∧ st.id = k ∧ e = Sum.inl (msg, st.description)

theorem processSubtasks_keys
    (proc : List Nat → String → String → List (String × KEntry) → RunOut)
    (path : List Nat) (pid : String) :
    ∀ (subtasks : List Subtask) (i : Nat) (kb : List (String × KEntry))
      (acc : List (String × ChildEntry)) (k : String),
      k ∈ ((processSubtasks proc path pid subtasks i kb acc).2.2).map Prod.fst ↔
        k ∈ acc.map Prod.fst ∨ k ∈ subtasks.map Subtask.id := by
  intro subtasks
  induction subtasks with
  | nil => intro i kb acc k; simp [processSubtasks]
  | cons st rest ih =>
    intro i kb acc k
    simp only [processSubtasks]
    rw [ih, mem_keys_dictInsert]
    simp only [List.map_cons, List.mem_cons]
    tauto

theorem processSubtasks_keys_nodup
    (proc : List Nat → String → String → List (String × KEntry) → RunOut)
    (path : List Nat) (pid : String) :
    ∀ (subtasks : List Subtask) (i : Nat) (kb : List (String × KEntry))
      (acc : List (String × ChildEntry)),
      (acc.map Prod.fst).Nodup →
      (((processSubtasks proc path pid subtasks i kb acc).2.2).map Prod.fst).Nodup := by
  intro subtasks
  induction subtasks with
  | nil => intro i kb acc h; simpa [processSubtasks] using h
  | cons st rest ih =>
    intro i kb acc h
    simp only [processSubtasks]
    exact ih (i + 1) _ _ (dictInsert_keys_nodup st.id _ acc h)

theorem processSubtasks_values
    (proc : List Nat → String → String → List (String × KEntry) → RunOut)
    (path : List Nat) (pid : String) (allowed : List Subtask) :
    ∀ (subtasks : List Subtask), (∀ st ∈ subtasks, st ∈ allowed) →
      ∀ (i : Nat) (kb : List (String × KEntry)) (acc : List (String × ChildEntry)),
        (∀ k e, (k, e) ∈ acc → entryOk allowed k e) →
        ∀ k e, (k, e) ∈ (processSubtasks proc path pid subtasks i kb acc).2.2 →
          entryOk allowed k e := by
  intro subtasks
  induction subtasks with
  | nil =>
    intro _ i kb acc hacc k e hmem
    exact hacc k e (by simpa [processSubtasks] using hmem)
  | cons st rest ih =>
    intro hsub i kb acc hacc k e hmem
    simp only [processSubtasks] at hmem
    refine ih (fun u hu => hsub u (by simp [hu])) (i + 1) _ _ ?_ k e hmem
    intro k' e' hmem'
    rcases mem_dictInsert st.id _ acc (k', e') hmem' with hnew | hold
    · rw [Prod.mk.injEq] at hnew
      obtain ⟨hk', he'⟩ := hnew
      cases hres : (proc (path ++ [i]) (pid ++ "_" ++ st.id) st.description kb).result with
      | ok r =>
        rw [hres] at he'
        exact Or.inl ⟨r, he'⟩
      | error ex =>
        rw [hres] at he'
        exact Or.inr ⟨ex.msg, st, hsub st (by simp), hk'.symm, he'⟩
    · exact hacc k' e' hold

/-- C4: for every run of `_process_subtasks`, the keys of
`child_results` are pairwise distinct and are exactly the ids of the
dispatched subtasks — a subtask whose processing raises contributes an
`{error, task}` entry under its id (with its own description as the
`task`) while its siblings continue, and no key outside the dispatched
ids occurs. -/
theorem c4_child_results_keys
    (proc : List Nat → String → String → List (String × KEntry) → RunOut)
    (path : List Nat) (parentNodeId : String) (subtasks : List Subtask)
    (kb : List (String × KEntry)) :
    (((processSubtasks proc path parentNodeId subtasks 0 kb []).2.2).map Prod.fst).Nodup ∧
    (∀ k, k ∈ ((processSubtasks proc path parentNodeId subtasks 0 kb []).2.2).map Prod.fst ↔
      k ∈ subtasks.map Subtask.id) ∧
    (∀ k e, (k, e) ∈ (processSubtasks proc path parentNodeId subtasks 0 kb []).2.2 →
      entryOk subtasks k e) :=
  ⟨processSubtasks_keys_nodup proc path parentNodeId subtasks 0 kb [] (by simp),
   fun k => by
    rw [processSubtasks_keys proc path parentNodeId subtasks 0 kb [] k]
    simp,
   processSubtasks_values proc path parentNodeId subtasks subtasks
    (fun _ h => h) 0 kb [] (by simp)⟩

/-- Witness for C4 at a concrete input: a single dispatched subtask
whose processing raises contributes an `{error, task}` entry. -/
theorem c4_child_results_keys_witness :
    "a" ∈ ((processSubtasks procFail [] "root" [⟨"a", "d"⟩] 0 [] []).2.2).map Prod.fst ∧
    entryOk [⟨"a", "d"⟩] "a" (Sum.inl ("boom", "d")) :=
  ⟨((c4_child_results_keys procFail [] "root" [⟨"a", "d"⟩] []).2.1 "a").mpr (by simp),
   (c4_child_results_keys procFail [] "root" [⟨"a", "d"⟩] []).2.2 "a"
    (Sum.inl ("boom", "d"))
    (by
      rw [show (processSubtasks procFail [] "root" [⟨"a", "d"⟩] 0 [] []).2.2
          = [("a", (Sum.inl ("boom", "d") : ChildEntry))] from rfl]
      exact List.mem_singleton.mpr rfl)⟩

/-- Witness for C10 at a concrete input: the decomposer returns six
subtasks and the complex result carries exactly the first five. -/
theorem c10_subtask_cap_witness :
    ([⟨"a", "d"⟩, ⟨"b", "d"⟩, ⟨"c", "d"⟩, ⟨"d", "d"⟩, ⟨"e", "d"⟩] : List Subtask)
        = (decomposeTask "q" (envSix.decompose [])).take 5 ∧
    ([⟨"a", "d"⟩, ⟨"b", "d"⟩, ⟨"c", "d"⟩, ⟨"d", "d"⟩, ⟨"e", "d"⟩] : List Subtask).length ≤ 5 :=
  c10_subtask_cap envSix 2 0 [] "root" "q" [] "q" 0
    [⟨"a", "d"⟩, ⟨"b", "d"⟩, ⟨"c", "d"⟩, ⟨"d", "d"⟩, ⟨"e", "d"⟩]
    [("a", .inr (.simple "d" 1 "s")), ("b", .inr (.simple "d" 1 "s")),
     ("c", .inr (.simple "d" 1 "s")), ("d", .inr (.simple "d" 1 "s")),
     ("e", .inr (.simple "d" 1 "s"))] "sum" rfl

/-! ### Claim theorems for the report synthesizer -/

/-- C8 counterexample: when outline generation in
`DeepResearchAgent._create_outline` — the synthesizer used by the
`research` pipeline — fails to parse the response, the fallback
outline has *zero* sections, not five. -/
theorem c8_agent_default_outline_counterexample :
    (agentCreateOutline "q" (.ok .failed)).sections.length = 0 ∧
    (agentCreateOutline "q" (.ok .failed)).title = "研究报告" :=
  ⟨rfl, rfl⟩

/-- C8 (amended): on any parse/validation failure or transport error,
`OutputOrganizer._create_outline` returns the fixed default outline
with exactly the five sections introduction, methodology, findings,
analysis and conclusion, while `DeepResearchAgent._create_outline`
falls back to an outline with an empty section list. -/
theorem c8_organizer_default_outline (query : String)
    (g : Except PyExn OrganizerOutlineParse)
    (h : g = .ok .invalid ∨ ∃ e, g = .error e) :
    organizerCreateOutline query g = organizerDefaultOutline query ∧
    (organizerDefaultOutline query).sections.length = 5 ∧
    (organizerDefaultOutline query).sections.map OutlineSection.sid
      = ["introduction", "methodology", "findings", "analysis", "conclusion"] ∧
    (agentCreateOutline query (.ok .failed)).sections = [] := by
  refine ⟨?_, rfl, rfl, rfl⟩
  rcases h with rfl | ⟨e, rfl⟩ <;> rfl

/-- Witness for C8's amended theorem at a concrete input. -/
theorem c8_organizer_default_outline_witness :
    organizerCreateOutline "q" (.ok .invalid) = organizerDefaultOutline "q" ∧
    (organizerDefaultOutline "q").sections.length = 5 ∧
    (organizerDefaultOutline "q").sections.map OutlineSection.sid
      = ["introduction", "methodology", "findings", "analysis", "conclusion"] ∧
    (agentCreateOutline "q" (.ok .failed)).sections = [] :=
  c8_organizer_default_outline "q" (.ok .invalid) (Or.inl rfl)

/-! ### Claim theorems for the section-prompt construction -/

theorem join_data : ∀ (l : List String) (s : String),
    (l.foldl (· ++ ·) s).data = s.data ++ (l.map String.data).flatten := by
  intro l
  induction l with
  | nil => intro s; simp
  | cons a l ih =>
    intro s
    simp only [List.foldl_cons, ih, List.map_cons, List.flatten_cons]
    rw [String.data_append s a, List.append_assoc]

theorem mem_join_data_isInf (s : String) (l : List String) (h : s ∈ l) :
    s.data <:+: (String.join l).data := by
  obtain ⟨p, q, rfl⟩ := List.append_of_mem h
  show s.data <:+: ((p ++ s :: q).foldl (· ++ ·) "").data
  rw [join_data]
  exact ⟨(p.map String.data).flatten, (q.map String.data).flatten, by simp⟩

/-- C9 (amended): whenever at least one of the immediately preceding
one or two generated sections has non-empty content, its truncated
excerpt line occurs verbatim in the user prompt built for the next
section. -/
theorem c9_prompt_contains_previous_excerpt
    (reportTitle sectionTitle contentRequirement : String)
    (researchInfo : List String) (previousSections : List ReportSection)
    (p : ReportSection)
    (hp : p ∈ previousSections.drop (previousSections.length - 2))
    (hc : p.content ≠ "") :
    ("\n- " ++ p.title ++ ": " ++ sectionExcerpt p.content).data <:+:
      (sectionUserPrompt reportTitle sectionTitle contentRequirement
        researchInfo previousSections).data := by
  apply mem_join_data_isInf
  have hne : previousSections.isEmpty = false := by
    cases previousSections with
    | nil => simp at hp
    | cons a l => rfl
  have hline : ("\n- " ++ p.title ++ ": " ++ sectionExcerpt p.content)
      ∈ prevSectionLines previousSections := by
    simp only [prevSectionLines, List.mem_map]
    exact ⟨p, List.mem_filter.mpr ⟨hp, bne_iff_ne.mpr hc⟩, rfl⟩
  simp [sectionUserPromptPieces, hne, hline]

/-- Witness for C9's amended theorem at a concrete input. -/
theorem c9_prompt_contains_previous_excerpt_witness :
    ("\n- " ++ "前章" ++ ": " ++ sectionExcerpt "内容").data <:+:
      (sectionUserPrompt "T" "S" "R" [] [⟨"前章", "内容"⟩]).data :=
  c9_prompt_contains_previous_excerpt "T" "S" "R" [] [⟨"前章", "内容"⟩]
    ⟨"前章", "内容"⟩ (by simp) (by decide)

set_option maxRecDepth 40000 in
/-- C9 counterexample: a single previously generated section with empty
content — previous sections exist, yet the prompt contains no excerpt
of any preceding section: the summary-line list is empty, the prompt
pieces are exactly the fixed header, the previous-sections banner and
the closing instruction, and the would-be excerpt line of the
preceding section does not occur in the prompt. -/
theorem c9_empty_content_counterexample :
    ([(⟨"t1", ""⟩ : ReportSection)] ≠ []) ∧
    prevSectionLines [⟨"t1", ""⟩] = [] ∧
    sectionUserPromptPieces "T" "S" "R" [] [⟨"t1", ""⟩]
      = ["\n请撰写以下研究报告章节的实际内容：\n\n报告标题: T\n当前章节: S\n章节要求: R\n",
         "\n\n前面章节简要内容摘要:",
         "\n\n请直接输出此章节的完整内容，不要包含任何写作指南、元描述或非研究内容的文本。"] ∧
    ¬ (("\n- " ++ "t1" ++ ": " ++ sectionExcerpt "").data <:+:
        (sectionUserPrompt "T" "S" "R" [] [⟨"t1", ""⟩]).data) := by
  refine ⟨by simp, rfl, rfl, by decide⟩

end DeepResearch
